import Mathlib

/-!
Verification of the MeshWave chunked file-transfer core against its
specification.  The definitions below are a shallow embedding of the C
sources (`src/transfer.c`, `src/client.c`, `src/server.c`,
`src/protocol.h`): module-level tables become explicit state records,
the fallible file-system and socket calls become boolean parameters
(`openOk`, `writeOk`, `sendOk`), and machine integers become `Nat`
(the counters involved are bounded far below any wrap-around).
-/

namespace MeshWave

/- ── Constants from protocol.h / transfer.h ───────────────────────── -/

def CHUNK_SIZE : Nat := 64 * 1024
def MAX_NAME : Nat := 64
def MAX_MSG : Nat := 4096
def XFER_MAX_RETRIES : Nat := 3
def MAX_TRANSFERS : Nat := 16

/- ── Data model (protocol.h) ───────────────────────────────────────── -/

/-- `XferState` from protocol.h. -/
inductive XferState
  | idle
  | active
  | paused
  | done
  | error
deriving DecidableEq, Repr

/-- `Transfer` from protocol.h.  The C `chunk_map` is a bit array; here it
is the set of sequence numbers whose bit is set, kept as a duplicate-free
list (setting an already-set bit is a no-op, exactly as `|=` is). -/
structure Transfer where
  id : Nat
  state : XferState
  filename : String
  peer : String
  total_chunks : Nat
  done_chunks : Nat
  chunk_map : List Nat
deriving DecidableEq, Repr

/-- `RecvCtx` from transfer.c.  `fp_open` models whether `fp` is a live
file handle (`fp != NULL`). -/
structure RecvCtx where
  xfer_id : Nat
  fp_open : Bool
  path : String
  file_size : Nat
  received_bytes : Nat
deriving DecidableEq, Repr

/-- The receiver-relevant module state of transfer.c: the `transfers`
array (prefix of length `xfer_count`) and the `recv_ctxs` array (prefix
of length `recv_count`). -/
structure RecvSys where
  transfers : List Transfer
  recv_ctxs : List RecvCtx
deriving DecidableEq, Repr

/-- `transfer_init`: both tables empty. -/
def initSys : RecvSys := ⟨[], []⟩

/-- `snprintf(dst, n+1, "%s", s)`: keep at most `n` characters. -/
def strTrunc (n : Nat) (s : String) : String :=
  String.mk (s.toList.take n)

/-- Mark bit `chunk_seq` in the bitmap (`t->chunk_map[seq/8] |= 1 << seq%8`). -/
def markChunk (m : List Nat) (chunk_seq : Nat) : List Nat :=
  if chunk_seq ∈ m then m else chunk_seq :: m

/-- popcount of the receiver bitmap over the valid bits `0 .. total-1`. -/
def validPopcount (t : Transfer) : Nat :=
  ((List.range t.total_chunks).filter (fun i => decide (i ∈ t.chunk_map))).length

/-- In-place mutation of the first array slot whose key is `a`
(the slot `transfer_find` / `find_recv_ctx` would return). -/
def updateByKey {α : Type} (key : α → Nat) (a : Nat) (f : α → α) : List α → List α
  | [] => []
  | x :: xs => if key x == a then f x :: xs else x :: updateByKey key a f xs

/-- `transfer_find`: linear scan, first slot whose id matches. -/
def transfer_find (sys : RecvSys) (xfer_id : Nat) : Option Transfer :=
  sys.transfers.find? (fun t => t.id == xfer_id)

/-- `find_recv_ctx`: linear scan of the receive contexts. -/
def find_recv_ctx (sys : RecvSys) (xfer_id : Nat) : Option RecvCtx :=
  sys.recv_ctxs.find? (fun rc => rc.xfer_id == xfer_id)

/-- Output path built by `transfer_recv_meta`:
`snprintf(path, 512, "%s/%s", save_dir, filename)` when a save directory
is configured, else the bare filename.  No separator in `filename` is
rejected or stripped. -/
def recvPath (save_dir filename : String) : String :=
  if save_dir ≠ "" then strTrunc 511 (save_dir ++ "/" ++ filename)
  else strTrunc 511 filename

/-- The transfer slot filled in by `transfer_recv_meta` (before the
`fopen` outcome is known): state ACTIVE, counters reset, empty bitmap. -/
def metaTransfer (xfer_id : Nat) (sender filename : String)
    (total_chunks : Nat) : Transfer :=
  { id := xfer_id
    state := XferState.active
    filename := strTrunc 255 filename
    peer := strTrunc (MAX_NAME - 1) sender
    total_chunks := total_chunks
    done_chunks := 0
    chunk_map := [] }

/-- The receive-context slot filled in by `transfer_recv_meta`;
`fp_open` records whether the `fopen` succeeded. -/
def metaCtx (xfer_id : Nat) (filename : String) (file_size : Nat)
    (save_dir : String) (openOk : Bool) : RecvCtx :=
  { xfer_id := xfer_id, fp_open := openOk
    path := strTrunc 511 (recvPath save_dir filename)
    file_size := file_size, received_bytes := 0 }

/-- `transfer_recv_meta` from transfer.c.  `openOk` models whether
`fopen(path, "wb")` succeeds.  On allocation failure the call returns -1
having touched nothing; on open failure it returns -1 but the freshly
allocated transfer (now in state ERROR) and the consumed receive-context
slot (with a null file handle) remain in the tables. -/
def transfer_recv_meta (sys : RecvSys) (xfer_id : Nat) (sender filename : String)
    (total_chunks file_size : Nat) (save_dir : String) (openOk : Bool) :
    Int × RecvSys :=
  if sys.transfers.length < MAX_TRANSFERS then
    if openOk then
      (0, ⟨sys.transfers ++ [metaTransfer xfer_id sender filename total_chunks],
           sys.recv_ctxs ++ [metaCtx xfer_id filename file_size save_dir true]⟩)
    else
      (-1, ⟨sys.transfers ++
              [{ metaTransfer xfer_id sender filename total_chunks with
                 state := XferState.error }],
            sys.recv_ctxs ++ [metaCtx xfer_id filename file_size save_dir false]⟩)
  else (-1, sys)

/-- The transfer after a successful chunk write: the bitmap bit is
marked and `done_chunks` incremented unconditionally (the source never
consults the bit first), and the transfer flips to DONE once
`done_chunks >= total_chunks`. -/
def recvChunkXfer (t : Transfer) (chunk_seq : Nat) : Transfer :=
  { t with chunk_map := markChunk t.chunk_map chunk_seq
           done_chunks := t.done_chunks + 1
           state := if t.done_chunks + 1 ≥ t.total_chunks then XferState.done
                    else t.state }

/-- The receive context after a successful chunk write: byte counter
advanced, and the file handle closed on completion. -/
def recvChunkCtx (t : Transfer) (rc : RecvCtx) (data_len : Nat) : RecvCtx :=
  { rc with received_bytes := rc.received_bytes + data_len
            fp_open := if t.done_chunks + 1 ≥ t.total_chunks then false
                       else rc.fp_open }

/-- `transfer_recv_chunk` from transfer.c.  `writeOk` models whether the
`fwrite` of the chunk succeeds in full. -/
def transfer_recv_chunk (sys : RecvSys) (xfer_id chunk_seq data_len : Nat)
    (writeOk : Bool) : Int × RecvSys :=
  match transfer_find sys xfer_id with
  | none => (-1, sys)
  | some t =>
    if t.state = XferState.paused ∨ t.state = XferState.error then (-1, sys)
    else
      match find_recv_ctx sys xfer_id with
      | none => (-1, sys)
      | some rc =>
        if rc.fp_open = false then (-1, sys)
        else if writeOk = false then (-1, sys)
        else
          (0, ⟨updateByKey Transfer.id xfer_id
                 (fun _ => recvChunkXfer t chunk_seq) sys.transfers,
               updateByKey RecvCtx.xfer_id xfer_id
                 (fun _ => recvChunkCtx t rc data_len) sys.recv_ctxs⟩)

/-- `transfer_pause` from transfer.c: legal only from ACTIVE. -/
def transfer_pause (sys : RecvSys) (xfer_id : Nat) : Int × RecvSys :=
  match transfer_find sys xfer_id with
  | none => (-1, sys)
  | some t =>
    if t.state = XferState.active then
      (0, ⟨updateByKey Transfer.id xfer_id
             (fun u => { u with state := XferState.paused }) sys.transfers,
           sys.recv_ctxs⟩)
    else (-1, sys)

/-- `transfer_resume` from transfer.c: legal only from PAUSED. -/
def transfer_resume (sys : RecvSys) (xfer_id : Nat) : Int × RecvSys :=
  match transfer_find sys xfer_id with
  | none => (-1, sys)
  | some t =>
    if t.state = XferState.paused then
      (0, ⟨updateByKey Transfer.id xfer_id
             (fun u => { u with state := XferState.active }) sys.transfers,
           sys.recv_ctxs⟩)
    else (-1, sys)

/- ── Receive-side operation sequences ──────────────────────────────── -/

/-- One call into the receive-relevant API of the transfer engine. -/
inductive RecvOp
  | meta (xfer_id : Nat) (sender filename : String)
         (total_chunks file_size : Nat) (save_dir : String) (openOk : Bool)
  | chunk (xfer_id chunk_seq data_len : Nat) (writeOk : Bool)
  | pause (xfer_id : Nat)
  | resume (xfer_id : Nat)

/-- Apply one operation to the engine state, discarding the status code. -/
def applyOp (sys : RecvSys) : RecvOp → RecvSys
  | RecvOp.meta xfer_id sender filename total_chunks file_size save_dir openOk =>
      (transfer_recv_meta sys xfer_id sender filename total_chunks file_size
        save_dir openOk).2
  | RecvOp.chunk xfer_id chunk_seq data_len writeOk =>
      (transfer_recv_chunk sys xfer_id chunk_seq data_len writeOk).2
  | RecvOp.pause xfer_id => (transfer_pause sys xfer_id).2
  | RecvOp.resume xfer_id => (transfer_resume sys xfer_id).2

/-- Run a call sequence starting from the freshly initialised engine. -/
def runOps (ops : List RecvOp) : RecvSys :=
  ops.foldl applyOp initSys

/- ── Sender (send_thread in transfer.c) ───────────────────────────── -/

/-- Result of `wait_for_ack`: 0 for a matching FILE_ACK, 1 for
FILE_NACK, 2 for PAUSE, -1 for timeout / short read / anything else. -/
inductive WaitRes
  | ok
  | nackR
  | pauseR
  | fail
deriving DecidableEq, Repr

/-- NACK and timeout (and unrecognised replies) are the retryable
failures of the inner loop. -/
def WaitRes.isRetry : WaitRes → Bool
  | WaitRes.nackR => true
  | WaitRes.fail => true
  | _ => false

/-- Outcome of the per-chunk `while (retries < XFER_MAX_RETRIES && !acked)`
loop: whether the chunk was acked, whether a PAUSE reply arrived, and how
many times the chunk frame was sent. -/
structure ChunkRes where
  acked : Bool
  paused : Bool
  sends : Nat
deriving DecidableEq, Repr

/-- The inner retry loop.  `resp k` is the reply observed after the
`k`-th transmission of this chunk (`k` starts at the current retry
count, which equals the number of earlier, failed transmissions).
`fuel` is the number of loop iterations still allowed,
`XFER_MAX_RETRIES - retries`. -/
def chunkTryAux (resp : Nat → WaitRes) : Nat → Nat → ChunkRes
  | 0, retries => ⟨false, false, retries⟩
  | fuel + 1, retries =>
    match resp retries with
    | WaitRes.ok => ⟨true, false, retries + 1⟩
    | WaitRes.pauseR => ⟨false, true, retries + 1⟩
    | WaitRes.nackR => chunkTryAux resp fuel (retries + 1)
    | WaitRes.fail => chunkTryAux resp fuel (retries + 1)

/-- The per-chunk loop entered with `retries = 0` for every chunk of the
outer `for (seq = 0; ...)` loop. -/
def chunkTry (resp : Nat → WaitRes) : ChunkRes :=
  chunkTryAux resp XFER_MAX_RETRIES 0

/-- The chunk frames put on the wire by the inner loop: one
`(seq, bytes)` frame per transmission, always the same `seq` and the
same bytes read once from offset `seq * CHUNK_SIZE`. -/
def chunkFramesAux (seq : Nat) (d : List Nat) (resp : Nat → WaitRes) :
    Nat → Nat → List (Nat × List Nat)
  | 0, _ => []
  | fuel + 1, retries =>
    (seq, d) ::
      (match resp retries with
       | WaitRes.ok => []
       | WaitRes.pauseR => []
       | WaitRes.nackR => chunkFramesAux seq d resp fuel (retries + 1)
       | WaitRes.fail => chunkFramesAux seq d resp fuel (retries + 1))

def chunkFrames (seq : Nat) (d : List Nat) (resp : Nat → WaitRes) :
    List (Nat × List Nat) :=
  chunkFramesAux seq d resp XFER_MAX_RETRIES 0

/-- Sender-side observable outcome of the send loop: the transfer state
when the thread last left the loop, `done_chunks`, and every chunk frame
transmitted. -/
structure SendResult where
  state : XferState
  done : Nat
  frames : List (Nat × List Nat)
deriving DecidableEq, Repr

/-- The outer `for (seq = 0; seq < total_chunks; seq++)` loop of
`send_thread`.  `resp seq k` is the reply to the `k`-th transmission of
chunk `seq`; `data seq` is the chunk read from the file.  A fully failed
chunk flips the transfer to ERROR and aborts; a PAUSE reply leaves the
loop in PAUSED (the thread then spins until an external resume — that
wait is outside this model).  On clean exit with all chunks acked the
state becomes DONE (`state == ACTIVE && done_chunks == total_chunks`). -/
def sendLoopAux (resp : Nat → Nat → WaitRes) (data : Nat → List Nat)
    (total : Nat) : Nat → Nat → Nat → List (Nat × List Nat) → SendResult
  | _, 0, done, frames =>
      if done = total then ⟨XferState.done, done, frames⟩
      else ⟨XferState.active, done, frames⟩
  | seq, remaining + 1, done, frames =>
      let c := chunkTry (resp seq)
      let frames' := frames ++ chunkFrames seq (data seq) (resp seq)
      if c.acked then sendLoopAux resp data total (seq + 1) remaining (seq + 1) frames'
      else if c.paused then ⟨XferState.paused, done, frames'⟩
      else ⟨XferState.error, done, frames'⟩

/-- `send_thread` after the META frame: state is ACTIVE, `done_chunks`
is 0, and the chunk loop runs over `seq = 0 .. total_chunks - 1`. -/
def sendLoop (resp : Nat → Nat → WaitRes) (data : Nat → List Nat)
    (total : Nat) : SendResult :=
  sendLoopAux resp data total 0 total 0 []

/- ── Peer endpoint (client.c) ─────────────────────────────────────── -/

/-- `client_send_chat` from client.c.  `sendOk` models whether the two
`send_all` calls succeed.  `strlen` is the UTF-8 byte length. -/
def client_send_chat (connected : Bool) (toPeer text : String) (sendOk : Bool) : Int :=
  if connected = false then -1
  else
    let total := toPeer.utf8ByteSize + 1 + text.utf8ByteSize
    if total > MAX_MSG then -1
    else if sendOk = false then -1
    else 0

/-- The receive loop's per-process state that matters for FILE_META
handling: the module id counter behind `transfer_next_id` and the
transfer engine state. -/
structure ClientRecvState where
  idCounter : Nat
  sys : RecvSys
deriving DecidableEq, Repr

/-- The `MSG_FILE_META` branch of `recv_loop` in client.c: it calls
`transfer_next_id()` — the receiver's own counter — for the transfer id
and passes that to `transfer_recv_meta`.  The META payload
(`recipient\0filename\0total_chunks file_size`) carries no
sender-chosen transfer id at all. -/
def client_handle_meta (st : ClientRecvState) (filename : String)
    (total_chunks file_size : Nat) (openOk : Bool) : ClientRecvState :=
  let xfer_id := st.idCounter
  let r := transfer_recv_meta st.sys xfer_id "sender" filename total_chunks
             file_size "./downloads" openOk
  ⟨st.idCounter + 1, r.2⟩

/- ── Hub endpoint (server.c) ──────────────────────────────────────── -/

/-- `Peer` from protocol.h, hub side.  Names are NUL-free byte strings;
they are kept as byte lists because the CHAT payload is raw bytes. -/
structure Peer where
  fd : Nat
  name : List Nat
  addr : List Nat
  port : Nat
  active : Bool
deriving DecidableEq, Repr

/-- `memchr(payload, 0, len)` split: the bytes before the first NUL and
the bytes after it; `none` when no NUL is present (the frame is
dropped). -/
def splitNul (payload : List Nat) : Option (List Nat × List Nat) :=
  if payload.contains 0 then
    some (payload.takeWhile (fun b => b ≠ 0),
          (payload.dropWhile (fun b => b ≠ 0)).tail)
  else none

/-- "unknown" as bytes, the fallback sender name. -/
def unknownName : List Nat := [117, 110, 107, 110, 111, 119, 110]

/-- Sender-name lookup by fd in `handle_packet` (first matching slot,
else the literal "unknown"). -/
def senderNameOf (peers : List Peer) (fd : Nat) : List Nat :=
  match peers.find? (fun p => p.fd == fd) with
  | some p => p.name
  | none => unknownName

/-- `peer_find_by_name`: first slot whose name matches. -/
def peer_find_by_name (peers : List Peer) (name : List Nat) : Option Peer :=
  peers.find? (fun p => p.name == name)

/-- `broadcast_to_all(..., exclude_fd)`: every peer slot except those
with the excluded fd. -/
def broadcast_to_all (peers : List Peer) (payload : List Nat)
    (exclude_fd : Nat) : List (Nat × List Nat) :=
  (peers.filter (fun p => p.fd != exclude_fd)).map (fun p => (p.fd, payload))

/-- The `MSG_CHAT` branch of `handle_packet` in server.c: parse
`to\0text`, rewrite the payload to `sender\0text`, then unicast to the
peer named `to` if one exists, else broadcast to everyone but the
sender.  The result is the list of `(fd, payload)` deliveries. -/
def handle_chat (peers : List Peer) (fd : Nat) (payload : List Nat) :
    List (Nat × List Nat) :=
  match splitNul payload with
  | none => []
  | some (toName, msg) =>
    let sender := senderNameOf peers fd
    let routed := sender ++ [0] ++ msg
    match peer_find_by_name peers toName with
    | some target => [(target.fd, routed)]
    | none => broadcast_to_all peers routed fd

/- ── Claim-specific concrete inputs and predicates ──────────────── -/

/-- A table with one ACTIVE transfer of id 4, for the C7 witness. -/
def c7sys : RecvSys :=
  ⟨[{ id := 4, state := XferState.active, filename := "f.bin", peer := "alice",
      total_chunks := 3, done_chunks := 1, chunk_map := [0] }], []⟩

/-- The call sequence of a receiver that is delivered the same chunk
twice: META for a 2-chunk file, then chunk 0, then a retransmitted
duplicate of chunk 0. -/
def c1ops : List RecvOp :=
  [RecvOp.meta 1 "alice" "f.bin" 2 70000 "./downloads" true,
   RecvOp.chunk 1 0 65536 true,
   RecvOp.chunk 1 0 65536 true]

/-- Receiver whose id counter stands at 3 (it has already allocated two
transfer ids) handling a FILE_META; the sender chose transfer id 7 for
this transfer and will carry 7 in every FILE_CHUNK frame. -/
def c2state : ClientRecvState :=
  client_handle_meta ⟨3, initSys⟩ "report.pdf" 4 200000 true

/-- Hub peer table for the C9 witness: alice on fd 1, bob on fd 2. -/
def c9peers : List Peer :=
  [{ fd := 1, name := [97, 108, 105, 99, 101], addr := [], port := 0, active := true },
   { fd := 2, name := [98, 111, 98], addr := [], port := 0, active := true }]

/-- The CHAT payload bytes for "bob\0hi". -/
def c9payload : List Nat := [98, 111, 98, 0, 104, 105]

/-- A chunk is acked within the retry budget: the `k`-th transmission
draws FILE_ACK after `k` retryable failures, `k < XFER_MAX_RETRIES`. -/
def ackWithin (resp : Nat → WaitRes) : Prop :=
  ∃ k, k < XFER_MAX_RETRIES ∧ resp k = WaitRes.ok ∧
    ∀ m, m < k → (resp m).isRetry = true

/-- Every transmission within the retry budget fails retryably
(NACK or timeout). -/
def allFail (resp : Nat → WaitRes) : Prop :=
  ∀ k, k < XFER_MAX_RETRIES → (resp k).isRetry = true

/-- Reply schedule for the C6 witness: chunk 0 draws two failures and
then an ACK; chunk 1 is acked first try. -/
def c6resp : Nat → Nat → WaitRes := fun seq k =>
  if seq = 0 then (if k < 2 then WaitRes.fail else WaitRes.ok) else WaitRes.ok

def c6data : Nat → List Nat := fun _ => [7]

/-- The inductive invariant of the receive tables: every transfer obeys
`done_chunks ≤ max total_chunks 1`; every transfer id with a table slot
also has a context slot; and while a transfer's context still holds an
open file, either `done_chunks < total_chunks` or the transfer is a
zero-chunk one that has not yet been touched. -/
def sysInv (sys : RecvSys) : Prop :=
  (∀ t, t ∈ sys.transfers → t.done_chunks ≤ max t.total_chunks 1) ∧
  (∀ a, (sys.transfers.find? (fun t => t.id == a)).isSome →
        (sys.recv_ctxs.find? (fun rc => rc.xfer_id == a)).isSome) ∧
  (∀ a t rc, sys.transfers.find? (fun u => u.id == a) = some t →
             sys.recv_ctxs.find? (fun c => c.xfer_id == a) = some rc →
             rc.fp_open = true →
             (t.done_chunks < t.total_chunks ∨
              (t.total_chunks = 0 ∧ t.done_chunks = 0)))

/-- C8 counterexample input: META announcing a zero-chunk transfer,
followed by a stray chunk for it. -/
def c8ops : List RecvOp :=
  [RecvOp.meta 1 "alice" "z.bin" 0 0 "./downloads" true,
   RecvOp.chunk 1 0 5 true]

/- ── Helper lemmas on table updates ───────────────────────────────── -/

lemma find?_updateByKey_self {α : Type} (key : α → Nat) (a : Nat) (f : α → α)
    {l : List α} {x : α} (h : l.find? (fun y => key y == a) = some x)
    (hf : key (f x) = a) :
    (updateByKey key a f l).find? (fun y => key y == a) = some (f x) := by
  induction l with
  | nil => simp at h
  | cons z zs ih =>
    by_cases hz : (key z == a) = true
    · have hzx : z = x := by
        rw [List.find?_cons] at h
        rw [hz] at h
        simpa using h
      subst hzx
      have hfz : (key (f z) == a) = true := by simp [hf]
      simp [updateByKey, hz, List.find?_cons, hfz]
    · have hzf : (key z == a) = false := by simpa using hz
      have h' : zs.find? (fun y => key y == a) = some x := by
        rw [List.find?_cons] at h
        rw [hzf] at h
        exact h
      simp only [updateByKey, hzf]
      simp only [Bool.false_eq_true, if_false]
      rw [List.find?_cons]
      rw [hzf]
      exact ih h'

lemma find?_updateByKey_other {α : Type} (key : α → Nat) (a b : Nat) (f : α → α)
    (hne : b ≠ a) (hf : ∀ x, key x = a → key (f x) = a) (l : List α) :
    (updateByKey key a f l).find? (fun y => key y == b) =
      l.find? (fun y => key y == b) := by
  induction l with
  | nil => rfl
  | cons z zs ih =>
    by_cases hz : (key z == a) = true
    · have hza : key z = a := by simpa using hz
      have hfa : key (f z) = a := hf z hza
      have h1 : (key (f z) == b) = false := by
        rw [hfa]
        simp
        omega
      have h2 : (key z == b) = false := by
        rw [hza]
        simp
        omega
      simp only [updateByKey, hz, if_true]
      rw [List.find?_cons, List.find?_cons, h1, h2]
    · have hzf : (key z == a) = false := by simpa using hz
      simp only [updateByKey, hzf]
      simp only [Bool.false_eq_true, if_false]
      rw [List.find?_cons, List.find?_cons]
      cases hb : (key z == b) with
      | true => rfl
      | false => exact ih

lemma mem_updateByKey {α : Type} (key : α → Nat) (a : Nat) (f : α → α)
    {l : List α} {y : α} (h : y ∈ updateByKey key a f l) :
    y ∈ l ∨ ∃ x, x ∈ l ∧ key x = a ∧ y = f x := by
  induction l with
  | nil => simp [updateByKey] at h
  | cons z zs ih =>
    by_cases hz : (key z == a) = true
    · simp only [updateByKey, hz, if_true] at h
      rcases List.mem_cons.mp h with h | h
      · exact Or.inr ⟨z, List.mem_cons_self z zs, by simpa using hz, h⟩
      · exact Or.inl (List.mem_cons_of_mem z h)
    · have hzf : (key z == a) = false := by simpa using hz
      simp only [updateByKey, hzf] at h
      simp only [Bool.false_eq_true, if_false] at h
      rcases List.mem_cons.mp h with h | h
      · exact Or.inl (by simp [h])
      · rcases ih h with h | ⟨x, hx, hk, hy⟩
        · exact Or.inl (List.mem_cons_of_mem z h)
        · exact Or.inr ⟨x, List.mem_cons_of_mem z hx, hk, hy⟩

/-- Two members of a table whose keys are pairwise distinct and whose
keys agree are the same slot. -/
lemma eq_of_mem_of_pairwise_ne {α β : Type} (key : α → β) {l : List α}
    (hp : l.Pairwise (fun a b => key a ≠ key b)) {x y : α}
    (hx : x ∈ l) (hy : y ∈ l) (h : key x = key y) : x = y := by
  induction l with
  | nil => simp at hx
  | cons z zs ih =>
    rcases List.pairwise_cons.mp hp with ⟨hz, hzs⟩
    rcases List.mem_cons.mp hx with hx | hx <;>
      rcases List.mem_cons.mp hy with hy | hy
    · rw [hx, hy]
    · exact absurd h (by rw [hx]; exact hz y hy)
    · exact absurd h.symm (by rw [hy]; exact hz x hx)
    · exact ih hzs hx hy

/- ── Pause / resume characterisation ──────────────────────────────── -/

lemma transfer_pause_of_find_none {sys : RecvSys} {xfer_id : Nat}
    (h : transfer_find sys xfer_id = none) :
    transfer_pause sys xfer_id = (-1, sys) := by
  simp [transfer_pause, h]

lemma transfer_pause_of_find_active {sys : RecvSys} {xfer_id : Nat} {t : Transfer}
    (h : transfer_find sys xfer_id = some t) (ha : t.state = XferState.active) :
    transfer_pause sys xfer_id =
      (0, ⟨updateByKey Transfer.id xfer_id
             (fun u => { u with state := XferState.paused }) sys.transfers,
           sys.recv_ctxs⟩) := by
  simp [transfer_pause, h, ha]

lemma transfer_pause_of_find_not_active {sys : RecvSys} {xfer_id : Nat} {t : Transfer}
    (h : transfer_find sys xfer_id = some t) (ha : t.state ≠ XferState.active) :
    transfer_pause sys xfer_id = (-1, sys) := by
  simp [transfer_pause, h, ha]

lemma transfer_resume_of_find_none {sys : RecvSys} {xfer_id : Nat}
    (h : transfer_find sys xfer_id = none) :
    transfer_resume sys xfer_id = (-1, sys) := by
  simp [transfer_resume, h]

lemma transfer_resume_of_find_paused {sys : RecvSys} {xfer_id : Nat} {t : Transfer}
    (h : transfer_find sys xfer_id = some t) (ha : t.state = XferState.paused) :
    transfer_resume sys xfer_id =
      (0, ⟨updateByKey Transfer.id xfer_id
             (fun u => { u with state := XferState.active }) sys.transfers,
           sys.recv_ctxs⟩) := by
  simp [transfer_resume, h, ha]

lemma transfer_resume_of_find_not_paused {sys : RecvSys} {xfer_id : Nat} {t : Transfer}
    (h : transfer_find sys xfer_id = some t) (ha : t.state ≠ XferState.paused) :
    transfer_resume sys xfer_id = (-1, sys) := by
  simp [transfer_resume, h, ha]

lemma find_eq_of_mem_unique {sys : RecvSys} {xfer_id : Nat} {t : Transfer}
    (hids : sys.transfers.Pairwise (fun a b => a.id ≠ b.id))
    (ht : t ∈ sys.transfers) (hid : t.id = xfer_id) :
    transfer_find sys xfer_id = some t := by
  have hsome : (sys.transfers.find? (fun u => u.id == xfer_id)).isSome := by
    rw [List.find?_isSome]
    exact ⟨t, ht, by simp [hid]⟩
  rcases Option.isSome_iff_exists.mp hsome with ⟨u, hu⟩
  have hu_id : u.id = xfer_id := by simpa using List.find?_some hu
  have hu_mem : u ∈ sys.transfers := List.mem_of_find?_eq_some hu
  have : u = t := eq_of_mem_of_pairwise_ne Transfer.id hids hu_mem ht (by rw [hu_id, hid])
  rw [transfer_find, hu, this]

/-- C7: `transfer_pause` succeeds exactly when a transfer with the id
exists in state ACTIVE, moving it to PAUSED; `transfer_resume` succeeds
exactly when one exists in state PAUSED, moving it to ACTIVE; every
failing call leaves the state untouched, so DONE and ERROR are never
transitioned out of.  (Table ids are pairwise distinct, as produced by
the engine's monotone id counter.) -/
theorem c7_pause_resume_exact (sys : RecvSys) (xfer_id : Nat)
    (hids : sys.transfers.Pairwise (fun a b => a.id ≠ b.id)) :
    ((transfer_pause sys xfer_id).1 = 0 ↔
      ∃ t, t ∈ sys.transfers ∧ t.id = xfer_id ∧ t.state = XferState.active) ∧
    ((transfer_resume sys xfer_id).1 = 0 ↔
      ∃ t, t ∈ sys.transfers ∧ t.id = xfer_id ∧ t.state = XferState.paused) ∧
    ((transfer_pause sys xfer_id).1 ≠ 0 → (transfer_pause sys xfer_id).2 = sys) ∧
    ((transfer_resume sys xfer_id).1 ≠ 0 → (transfer_resume sys xfer_id).2 = sys) ∧
    ((transfer_pause sys xfer_id).1 = 0 →
      transfer_find (transfer_pause sys xfer_id).2 xfer_id =
        (transfer_find sys xfer_id).map
          (fun t => { t with state := XferState.paused })) ∧
    ((transfer_resume sys xfer_id).1 = 0 →
      transfer_find (transfer_resume sys xfer_id).2 xfer_id =
        (transfer_find sys xfer_id).map
          (fun t => { t with state := XferState.active })) ∧
    (∀ t, t ∈ sys.transfers → t.id = xfer_id →
      t.state = XferState.done ∨ t.state = XferState.error →
      (transfer_pause sys xfer_id).2 = sys ∧
      (transfer_resume sys xfer_id).2 = sys) := by
  refine ⟨?_, ?_, ?_, ?_, ?_, ?_, ?_⟩
  · constructor
    · intro h0
      cases hf : transfer_find sys xfer_id with
      | none => rw [transfer_pause_of_find_none hf] at h0; simp at h0
      | some t =>
        by_cases ha : t.state = XferState.active
        · exact ⟨t, List.mem_of_find?_eq_some hf, by simpa using List.find?_some hf, ha⟩
        · rw [transfer_pause_of_find_not_active hf ha] at h0
          simp at h0
    · rintro ⟨t, ht, hid, ha⟩
      rw [transfer_pause_of_find_active (find_eq_of_mem_unique hids ht hid) ha]
  · constructor
    · intro h0
      cases hf : transfer_find sys xfer_id with
      | none => rw [transfer_resume_of_find_none hf] at h0; simp at h0
      | some t =>
        by_cases ha : t.state = XferState.paused
        · exact ⟨t, List.mem_of_find?_eq_some hf, by simpa using List.find?_some hf, ha⟩
        · rw [transfer_resume_of_find_not_paused hf ha] at h0
          simp at h0
    · rintro ⟨t, ht, hid, ha⟩
      rw [transfer_resume_of_find_paused (find_eq_of_mem_unique hids ht hid) ha]
  · intro h0
    cases hf : transfer_find sys xfer_id with
    | none => rw [transfer_pause_of_find_none hf]
    | some t =>
      by_cases ha : t.state = XferState.active
      · rw [transfer_pause_of_find_active hf ha] at h0; exact absurd rfl h0
      · rw [transfer_pause_of_find_not_active hf ha]
  · intro h0
    cases hf : transfer_find sys xfer_id with
    | none => rw [transfer_resume_of_find_none hf]
    | some t =>
      by_cases ha : t.state = XferState.paused
      · rw [transfer_resume_of_find_paused hf ha] at h0; exact absurd rfl h0
      · rw [transfer_resume_of_find_not_paused hf ha]
  · intro h0
    cases hf : transfer_find sys xfer_id with
    | none => rw [transfer_pause_of_find_none hf] at h0; simp at h0
    | some t =>
      by_cases ha : t.state = XferState.active
      · have hid : t.id = xfer_id := by simpa using List.find?_some hf
        rw [transfer_pause_of_find_active hf ha]
        exact find?_updateByKey_self Transfer.id xfer_id _ hf hid
      · rw [transfer_pause_of_find_not_active hf ha] at h0; simp at h0
  · intro h0
    cases hf : transfer_find sys xfer_id with
    | none => rw [transfer_resume_of_find_none hf] at h0; simp at h0
    | some t =>
      by_cases ha : t.state = XferState.paused
      · have hid : t.id = xfer_id := by simpa using List.find?_some hf
        rw [transfer_resume_of_find_paused hf ha]
        exact find?_updateByKey_self Transfer.id xfer_id _ hf hid
      · rw [transfer_resume_of_find_not_paused hf ha] at h0; simp at h0
  · intro t ht hid hterm
    have hf : transfer_find sys xfer_id = some t := find_eq_of_mem_unique hids ht hid
    have hpa : t.state ≠ XferState.active := by
      rcases hterm with h | h <;> rw [h] <;> decide
    have hpp : t.state ≠ XferState.paused := by
      rcases hterm with h | h <;> rw [h] <;> decide
    rw [transfer_pause_of_find_not_active hf hpa,
        transfer_resume_of_find_not_paused hf hpp]
    exact ⟨rfl, rfl⟩

/-- Witness for C7 at a concrete table: pausing the ACTIVE transfer 4
succeeds. -/
theorem c7_witness :
    (transfer_pause c7sys 4).1 = 0 ↔
      ∃ t, t ∈ c7sys.transfers ∧ t.id = 4 ∧ t.state = XferState.active :=
  (c7_pause_resume_exact c7sys 4 (by simp [c7sys])).1

end MeshWave


set_option maxRecDepth 8192

namespace MeshWave

/- ── Theorems ─────────────────────────────────────────────────────── -/

/-- C1: the claim says the bitmap bit is consulted before `done_chunks`
is incremented, so a duplicate chunk is never double-counted and
popcount(bitmap) = `done_chunks`.  The code increments unconditionally:
after chunk 0 arrives twice on a 2-chunk transfer, `done_chunks` is 2
while only one valid bitmap bit is set, and the transfer is marked DONE
with chunk 1 never received. -/
theorem c1_duplicate_chunk_double_counted :
    (transfer_find (runOps c1ops) 1).map
        (fun t => (t.done_chunks, validPopcount t, t.state, t.total_chunks)) =
      some (2, 1, XferState.done, 2) ∧ (2 : Nat) ≠ 1 := by
  exact ⟨by decide, by decide⟩

/-- C2: the claim says the receiver adopts the sender-chosen id (the id
carried in the FILE_CHUNK frames) verbatim.  The code instead calls
`transfer_next_id()` — its own counter — and the META payload does not
even carry the sender's id: the receive transfer is allocated under
local id 3, lookup by the sender's id 7 finds nothing, and the incoming
chunk is rejected (NACKed). -/
theorem c2_receiver_assigns_fresh_local_id :
    c2state.sys.transfers.map Transfer.id = [3] ∧
    transfer_find c2state.sys 7 = none ∧
    transfer_recv_chunk c2state.sys 7 0 65536 true = (-1, c2state.sys) := by
  exact ⟨by decide, by decide, by decide⟩

/-- C3: the claim says directory separators in the sender-supplied
basename are rejected or stripped.  The code builds
`snprintf(path, 512, "%s/%s", save_dir, filename)` with the wire
filename verbatim: a filename of `../../etc/evil` produces an output
path that leaves the save directory, and `transfer_recv_meta` records
exactly that path in the receive context. -/
theorem c3_path_separators_honoured :
    recvPath "./downloads" "../../etc/evil" = "./downloads/" ++ "../../etc/evil" ∧
    '/' ∈ "../../etc/evil".toList ∧
    (transfer_recv_meta initSys 1 "alice" "../../etc/evil" 1 10
        "./downloads" true).2.recv_ctxs.map RecvCtx.path =
      ["./downloads/../../etc/evil"] := by
  exact ⟨by decide, by decide, by decide⟩

/-- C4: for a zero-byte file the claim says both sides reach DONE
immediately.  The sender does: with `total_chunks = 0` the chunk loop
never runs and the final check flips ACTIVE to DONE.  The receiver does
not: `transfer_recv_meta` leaves the transfer in ACTIVE and only
`transfer_recv_chunk` ever performs the completion check, so with no
CHUNK frames the receive transfer stays ACTIVE forever. -/
theorem c4_zero_byte_receiver_never_done :
    (∀ (resp : Nat → Nat → WaitRes) (data : Nat → List Nat),
       sendLoop resp data 0 = ⟨XferState.done, 0, []⟩) ∧
    (transfer_recv_meta initSys 1 "alice" "empty.bin" 0 0
        "./downloads" true).2.transfers.map Transfer.state =
      [XferState.active] ∧
    XferState.active ≠ XferState.done := by
  exact ⟨fun resp data => rfl, by decide, by decide⟩

/-- C5 counterexample: the claim says a chat with an empty recipient is
rejected by `client_send_chat`; the code has no such check and returns
success. -/
theorem c5_empty_recipient_accepted :
    client_send_chat true "" "hi" true = 0 ∧ (0 : Int) ≠ -1 := by
  exact ⟨by decide, by decide⟩

/-- C5 (amended): `client_send_chat` succeeds iff the client is
connected and `strlen(to) + 1 + strlen(text)` is at most `MAX_MSG`
(4096); the rejection boundary is at 4097 bytes, not 4096, and an empty
recipient is not rejected.  (Socket write failure, modelled by `sendOk`,
is held successful here.) -/
theorem c5_error_iff_disconnected_or_oversized :
    ∀ (connected : Bool) (toPeer text : String),
      (client_send_chat connected toPeer text true = 0 ↔
        connected = true ∧
          toPeer.utf8ByteSize + 1 + text.utf8ByteSize ≤ MAX_MSG) ∧
      (client_send_chat connected toPeer text true = -1 ↔
        ¬(connected = true ∧
          toPeer.utf8ByteSize + 1 + text.utf8ByteSize ≤ MAX_MSG)) := by
  intro connected toPeer text
  unfold client_send_chat
  cases connected <;> simp

/-- C10: when the output file cannot be opened but the transfer table
had room, `transfer_recv_meta` returns -1 yet leaves a newly allocated
Transfer with the given id in state ERROR occupying a table slot, and a
receive-context slot with that id consumed with a null file handle. -/
theorem c10_meta_open_failure_leaves_slots :
    ∀ (sys : RecvSys) (xfer_id : Nat) (sender filename : String)
      (total_chunks file_size : Nat) (save_dir : String),
      sys.transfers.length < MAX_TRANSFERS →
      (transfer_recv_meta sys xfer_id sender filename total_chunks file_size
          save_dir false).1 = -1 ∧
      (transfer_recv_meta sys xfer_id sender filename total_chunks file_size
          save_dir false).2.transfers =
        sys.transfers ++
          [{ id := xfer_id, state := XferState.error,
             filename := strTrunc 255 filename,
             peer := strTrunc (MAX_NAME - 1) sender,
             total_chunks := total_chunks, done_chunks := 0,
             chunk_map := [] }] ∧
      (transfer_recv_meta sys xfer_id sender filename total_chunks file_size
          save_dir false).2.recv_ctxs =
        sys.recv_ctxs ++
          [{ xfer_id := xfer_id, fp_open := false,
             path := strTrunc 511 (recvPath save_dir filename),
             file_size := file_size, received_bytes := 0 }] := by
  intro sys xfer_id sender filename total_chunks file_size save_dir h
  unfold transfer_recv_meta
  simp [h, metaTransfer, metaCtx]

/-- Witness for C10 at a concrete input: the empty table has room, so
the failed META leaves exactly one ERROR transfer and one dead context. -/
theorem c10_witness :
    (transfer_recv_meta initSys 5 "alice" "a.bin" 3 100 "./downloads"
        false).1 = -1 ∧
    (transfer_recv_meta initSys 5 "alice" "a.bin" 3 100 "./downloads"
        false).2.transfers =
      initSys.transfers ++
        [{ id := 5, state := XferState.error,
           filename := strTrunc 255 "a.bin",
           peer := strTrunc (MAX_NAME - 1) "alice",
           total_chunks := 3, done_chunks := 0, chunk_map := [] }] ∧
    (transfer_recv_meta initSys 5 "alice" "a.bin" 3 100 "./downloads"
        false).2.recv_ctxs =
      initSys.recv_ctxs ++
        [{ xfer_id := 5, fp_open := false,
           path := strTrunc 511 (recvPath "./downloads" "a.bin"),
           file_size := 100, received_bytes := 0 }] := by
  exact c10_meta_open_failure_leaves_slots initSys 5 "alice" "a.bin" 3 100
    "./downloads" (by decide)

/-- C9: for every CHAT frame with a well-formed `recipient\0text`
payload, the hub rewrites the payload to `sender\0text` (the sending
peer's table name) and delivers it to exactly the peer whose name equals
the recipient when one exists, and otherwise to every connected peer
except the sender.  (Peer names are pairwise distinct, the premise under
which "the peer whose name equals the recipient" is well defined.) -/
theorem c9_chat_unicast_or_broadcast :
    ∀ (peers : List Peer) (fd : Nat) (payload toName msg : List Nat),
      splitNul payload = some (toName, msg) →
      peers.Pairwise (fun a b => a.name ≠ b.name) →
      (∀ p, p ∈ peers → p.name = toName →
        handle_chat peers fd payload =
          [(p.fd, senderNameOf peers fd ++ [0] ++ msg)]) ∧
      ((∀ p, p ∈ peers → p.name ≠ toName) →
        handle_chat peers fd payload =
          (peers.filter (fun p => p.fd != fd)).map
            (fun p => (p.fd, senderNameOf peers fd ++ [0] ++ msg))) := by
  intro peers fd payload toName msg hsplit hp
  constructor
  · intro p hmem hname
    have hfind : peer_find_by_name peers toName = some p := by
      have hsome : (peers.find? (fun q => q.name == toName)).isSome := by
        rw [List.find?_isSome]
        exact ⟨p, hmem, by simp [hname]⟩
      rcases Option.isSome_iff_exists.mp hsome with ⟨u, hu⟩
      have hu_name : u.name = toName := by simpa using List.find?_some hu
      have hu_mem : u ∈ peers := List.mem_of_find?_eq_some hu
      have hup : u = p :=
        eq_of_mem_of_pairwise_ne Peer.name hp hu_mem hmem (by rw [hu_name, hname])
      rw [peer_find_by_name, hu, hup]
    simp [handle_chat, hsplit, hfind]
  · intro hnone
    have hfind : peer_find_by_name peers toName = none := by
      rw [peer_find_by_name, List.find?_eq_none]
      intro x hx
      simp only [beq_iff_eq]
      exact hnone x hx
    simp [handle_chat, hsplit, hfind, broadcast_to_all]

/-- Witness for C9: alice's chat to "bob" is unicast to bob's fd with
the payload rewritten to alice's own name. -/
theorem c9_witness :
    handle_chat c9peers 1 c9payload =
      [(2, senderNameOf c9peers 1 ++ [0] ++ [104, 105])] :=
  (c9_chat_unicast_or_broadcast c9peers 1 c9payload [98, 111, 98] [104, 105]
      (by decide) (by decide)).1
    { fd := 2, name := [98, 111, 98], addr := [], port := 0, active := true }
    (by decide) (by decide)

/- ── Sender retry policy (C6) ─────────────────────────────────────── -/

lemma chunkTryAux_sends_le (resp : Nat → WaitRes) :
    ∀ fuel retries, (chunkTryAux resp fuel retries).sends ≤ retries + fuel := by
  intro fuel
  induction fuel with
  | zero => intro retries; simp [chunkTryAux]
  | succ f ih =>
    intro retries
    cases hr : resp retries with
    | ok => simp [chunkTryAux, hr]
    | pauseR => simp [chunkTryAux, hr]
    | nackR =>
      simp only [chunkTryAux, hr]
      have := ih (retries + 1)
      omega
    | fail =>
      simp only [chunkTryAux, hr]
      have := ih (retries + 1)
      omega

lemma mem_chunkFramesAux (seq : Nat) (d : List Nat) (resp : Nat → WaitRes) :
    ∀ fuel retries f, f ∈ chunkFramesAux seq d resp fuel retries → f = (seq, d) := by
  intro fuel
  induction fuel with
  | zero => intro retries f hf; simp [chunkFramesAux] at hf
  | succ n ih =>
    intro retries f hf
    cases hr : resp retries with
    | ok =>
      simp only [chunkFramesAux, hr] at hf
      rcases List.mem_cons.mp hf with hf | hf
      · exact hf
      · simp at hf
    | pauseR =>
      simp only [chunkFramesAux, hr] at hf
      rcases List.mem_cons.mp hf with hf | hf
      · exact hf
      · simp at hf
    | nackR =>
      simp only [chunkFramesAux, hr] at hf
      rcases List.mem_cons.mp hf with hf | hf
      · exact hf
      · exact ih (retries + 1) f hf
    | fail =>
      simp only [chunkFramesAux, hr] at hf
      rcases List.mem_cons.mp hf with hf | hf
      · exact hf
      · exact ih (retries + 1) f hf

lemma chunkTryAux_all_fail (resp : Nat → WaitRes) :
    ∀ fuel retries, (∀ k, k < fuel → (resp (retries + k)).isRetry = true) →
      chunkTryAux resp fuel retries = ⟨false, false, retries + fuel⟩ := by
  intro fuel
  induction fuel with
  | zero => intro retries _; simp [chunkTryAux]
  | succ f ih =>
    intro retries h
    have h0 : (resp retries).isRetry = true := by
      have := h 0 (Nat.succ_pos f)
      simpa using this
    have hrec : chunkTryAux resp f (retries + 1) = ⟨false, false, retries + 1 + f⟩ := by
      apply ih
      intro k hk
      have := h (k + 1) (by omega)
      have heq : retries + (k + 1) = retries + 1 + k := by omega
      rw [heq] at this
      exact this
    cases hr : resp retries with
    | ok => rw [hr] at h0; simp [WaitRes.isRetry] at h0
    | pauseR => rw [hr] at h0; simp [WaitRes.isRetry] at h0
    | nackR =>
      simp only [chunkTryAux, hr, hrec]
      congr 1
      omega
    | fail =>
      simp only [chunkTryAux, hr, hrec]
      congr 1
      omega

lemma chunkTryAux_acked (resp : Nat → WaitRes) :
    ∀ k fuel retries, k < fuel → resp (retries + k) = WaitRes.ok →
      (∀ m, m < k → (resp (retries + m)).isRetry = true) →
      chunkTryAux resp fuel retries = ⟨true, false, retries + k + 1⟩ := by
  intro k
  induction k with
  | zero =>
    intro fuel retries hk hok _
    cases fuel with
    | zero => omega
    | succ f =>
      have hok' : resp retries = WaitRes.ok := by simpa using hok
      simp [chunkTryAux, hok']
  | succ k ih =>
    intro fuel retries hk hok hm
    cases fuel with
    | zero => omega
    | succ f =>
      have h0 : (resp retries).isRetry = true := by
        have := hm 0 (Nat.succ_pos k)
        simpa using this
      have hrec : chunkTryAux resp f (retries + 1) = ⟨true, false, retries + 1 + k + 1⟩ := by
        apply ih f (retries + 1) (by omega)
        · have heq : retries + 1 + k = retries + (k + 1) := by omega
          rw [heq]
          exact hok
        · intro m hmk
          have := hm (m + 1) (by omega)
          have heq : retries + (m + 1) = retries + 1 + m := by omega
          rw [heq] at this
          exact this
      cases hr : resp retries with
      | ok => rw [hr] at h0; simp [WaitRes.isRetry] at h0
      | pauseR => rw [hr] at h0; simp [WaitRes.isRetry] at h0
      | nackR =>
        simp only [chunkTryAux, hr, hrec]
        congr 1
        omega
      | fail =>
        simp only [chunkTryAux, hr, hrec]
        congr 1
        omega

lemma chunkTry_of_ackWithin {resp : Nat → WaitRes} (h : ackWithin resp) :
    ∃ k, k < XFER_MAX_RETRIES ∧ chunkTry resp = ⟨true, false, k + 1⟩ := by
  rcases h with ⟨k, hk, hok, hm⟩
  refine ⟨k, hk, ?_⟩
  have := chunkTryAux_acked resp k XFER_MAX_RETRIES 0 hk (by simpa using hok)
    (by intro m hmk; simpa using hm m hmk)
  simpa using this

lemma chunkTry_of_allFail {resp : Nat → WaitRes} (h : allFail resp) :
    chunkTry resp = ⟨false, false, XFER_MAX_RETRIES⟩ := by
  have := chunkTryAux_all_fail resp XFER_MAX_RETRIES 0
    (by intro k hk; simpa using h k hk)
  simpa using this

lemma sendLoopAux_all_acked (resp : Nat → Nat → WaitRes) (data : Nat → List Nat)
    (total : Nat) :
    ∀ remaining seq frames, seq + remaining = total →
      (∀ i, seq ≤ i → i < total → ackWithin (resp i)) →
      (sendLoopAux resp data total seq remaining seq frames).state = XferState.done ∧
      (sendLoopAux resp data total seq remaining seq frames).done = total := by
  intro remaining
  induction remaining with
  | zero =>
    intro seq frames hseq _
    have h : seq = total := by omega
    simp [sendLoopAux, h]
  | succ r ih =>
    intro seq frames hseq hack
    have hlt : seq < total := by omega
    rcases chunkTry_of_ackWithin (hack seq (Nat.le_refl seq) hlt) with ⟨k, _, hc⟩
    simp only [sendLoopAux, hc]
    exact ih (seq + 1) (frames ++ chunkFrames seq (data seq) (resp seq)) (by omega)
      (by intro i hi hit; exact hack i (by omega) hit)

lemma sendLoopAux_fails_at (resp : Nat → Nat → WaitRes) (data : Nat → List Nat)
    (total j : Nat) (hj : j < total) (hfail : allFail (resp j)) :
    ∀ remaining seq frames, seq + remaining = total → seq ≤ j →
      (∀ i, seq ≤ i → i < j → ackWithin (resp i)) →
      (∀ f, f ∈ frames → f.1 < seq) →
      (sendLoopAux resp data total seq remaining seq frames).state = XferState.error ∧
      (sendLoopAux resp data total seq remaining seq frames).done = j ∧
      (∀ f, f ∈ (sendLoopAux resp data total seq remaining seq frames).frames →
        f.1 ≤ j) := by
  intro remaining
  induction remaining with
  | zero => intro seq frames hseq hsj _ _; omega
  | succ r ih =>
    intro seq frames hseq hsj hack hframes
    by_cases hej : seq = j
    · subst hej
      have hc := chunkTry_of_allFail hfail
      simp only [sendLoopAux, hc]
      refine ⟨rfl, rfl, ?_⟩
      intro f hf
      rcases List.mem_append.mp hf with hf | hf
      · exact Nat.le_of_lt (hframes f hf)
      · rw [mem_chunkFramesAux seq (data seq) (resp seq) XFER_MAX_RETRIES 0 f hf]
    · have hlt : seq < j := by omega
      rcases chunkTry_of_ackWithin (hack seq (Nat.le_refl seq) hlt) with ⟨k, _, hc⟩
      simp only [sendLoopAux, hc]
      apply ih (seq + 1) (frames ++ chunkFrames seq (data seq) (resp seq)) (by omega)
        (by omega) (by intro i hi hij; exact hack i (by omega) hij)
      intro f hf
      rcases List.mem_append.mp hf with hf | hf
      · have := hframes f hf; omega
      · rw [mem_chunkFramesAux seq (data seq) (resp seq) XFER_MAX_RETRIES 0 f hf]
        omega

/-- C6: the sender's retry policy.  For every chunk: (1) the chunk frame
is transmitted at most `XFER_MAX_RETRIES` (3) times; (2) every
retransmission carries the identical seq and identical bytes; (3) if the
first chunk to exhaust its budget is `j` — all three replies retryable
failures (NACK or timeout) after every earlier chunk was acked within
budget — the transfer transitions to ERROR with `done_chunks = j` and
the loop aborts, never transmitting any chunk beyond `j`; (4) the retry
counter restarts per chunk: if every chunk is acked after fewer than 3
failures, the whole transfer completes DONE. -/
theorem c6_per_chunk_bounded_retries :
    ∀ (resp : Nat → Nat → WaitRes) (data : Nat → List Nat) (total j : Nat),
      ((chunkTry (resp j)).sends ≤ XFER_MAX_RETRIES) ∧
      (∀ f, f ∈ chunkFrames j (data j) (resp j) → f = (j, data j)) ∧
      (j < total → (∀ i, i < j → ackWithin (resp i)) → allFail (resp j) →
        (sendLoop resp data total).state = XferState.error ∧
        (sendLoop resp data total).done = j ∧
        (∀ f, f ∈ (sendLoop resp data total).frames → f.1 ≤ j)) ∧
      ((∀ i, i < total → ackWithin (resp i)) →
        (sendLoop resp data total).state = XferState.done ∧
        (sendLoop resp data total).done = total) := by
  intro resp data total j
  refine ⟨?_, ?_, ?_, ?_⟩
  · have := chunkTryAux_sends_le (resp j) XFER_MAX_RETRIES 0
    simpa [chunkTry] using this
  · intro f hf
    exact mem_chunkFramesAux j (data j) (resp j) XFER_MAX_RETRIES 0 f hf
  · intro hj hack hfail
    exact sendLoopAux_fails_at resp data total j hj hfail total 0 [] (by omega)
      (by omega) (by intro i _ hij; exact hack i hij) (by intro f hf; simp at hf)
  · intro hack
    exact sendLoopAux_all_acked resp data total total 0 [] (by omega)
      (by intro i _ hit; exact hack i hit)

/-- Witness for C6: with two failures then an ACK on chunk 0, the retry
counter resets and the 2-chunk transfer completes DONE. -/
theorem c6_witness :
    (sendLoop c6resp c6data 2).state = XferState.done ∧
    (sendLoop c6resp c6data 2).done = 2 := by
  apply (c6_per_chunk_bounded_retries c6resp c6data 2 0).2.2.2
  intro i hi
  by_cases h0 : i = 0
  · subst h0
    exact ⟨2, by decide, by decide, by intro m hm; interval_cases m <;> decide⟩
  · refine ⟨0, by decide, ?_, by intro m hm; omega⟩
    simp [c6resp, h0]

/- ── The done/total bound (C8) ────────────────────────────────────── -/

lemma sysInv_initSys : sysInv initSys := by
  refine ⟨?_, ?_, ?_⟩ <;> simp [initSys]

lemma sysInv_append {sys : RecvSys} (h : sysInv sys) (tN : Transfer) (rcN : RecvCtx)
    (hid : tN.id = rcN.xfer_id) (hdone : tN.done_chunks = 0) :
    sysInv ⟨sys.transfers ++ [tN], sys.recv_ctxs ++ [rcN]⟩ := by
  obtain ⟨hbound, hex, hopeninv⟩ := h
  refine ⟨?_, ?_, ?_⟩
  · intro y hy
    rcases List.mem_append.mp hy with hy | hy
    · exact hbound y hy
    · have : y = tN := by simpa using hy
      subst this
      rw [hdone]
      exact Nat.zero_le _
  · intro a ha
    rw [List.find?_append] at ha ⊢
    cases hfl : sys.transfers.find? (fun t => t.id == a) with
    | some t0 =>
      have := hex a (by rw [hfl]; rfl)
      cases hcl : sys.recv_ctxs.find? (fun rc => rc.xfer_id == a) with
      | some rc0 => simp [hcl]
      | none => rw [hcl] at this; simp at this
    | none =>
      rw [hfl] at ha
      simp only [Option.none_or] at ha
      have htn : (tN.id == a) = true := by
        rcases Option.isSome_iff_exists.mp ha with ⟨u, hu⟩
        have hmem := List.mem_of_find?_eq_some hu
        have : u = tN := by simpa using hmem
        subst this
        have := List.find?_some hu
        simpa using this
      have hrn : (rcN.xfer_id == a) = true := by
        rw [← hid]
        exact htn
      cases hcl : sys.recv_ctxs.find? (fun rc => rc.xfer_id == a) with
      | some rc0 => simp [hcl]
      | none => simp [hcl, List.find?_cons, hrn]
  · intro a t2 rc2 hft2 hfc2 hopen2
    rw [List.find?_append] at hft2 hfc2
    cases hfl : sys.transfers.find? (fun t => t.id == a) with
    | some t0 =>
      rw [hfl] at hft2
      simp only [Option.or_some] at hft2
      injection hft2 with hft2
      subst hft2
      have hcsome := hex a (by rw [hfl]; rfl)
      cases hcl : sys.recv_ctxs.find? (fun rc => rc.xfer_id == a) with
      | some rc0 =>
        rw [hcl] at hfc2
        simp only [Option.or_some] at hfc2
        injection hfc2 with hfc2
        subst hfc2
        exact hopeninv a t0 rc0 hfl hcl hopen2
      | none => rw [hcl] at hcsome; simp at hcsome
    | none =>
      rw [hfl] at hft2
      simp only [Option.none_or] at hft2
      have : t2 = tN := by
        have hmem := List.mem_of_find?_eq_some hft2
        simpa using hmem
      subst this
      rcases Nat.eq_zero_or_pos t2.total_chunks with h0 | h0
      · exact Or.inr ⟨h0, hdone⟩
      · exact Or.inl (by rw [hdone]; exact h0)

lemma sysInv_chunk_update {sys : RecvSys} {xfer_id : Nat} {t : Transfer}
    {rc : RecvCtx} (chunk_seq data_len : Nat) (h : sysInv sys)
    (hft : transfer_find sys xfer_id = some t)
    (hfc : find_recv_ctx sys xfer_id = some rc)
    (hopen : rc.fp_open = true) :
    sysInv ⟨updateByKey Transfer.id xfer_id
              (fun _ => recvChunkXfer t chunk_seq) sys.transfers,
            updateByKey RecvCtx.xfer_id xfer_id
              (fun _ => recvChunkCtx t rc data_len) sys.recv_ctxs⟩ := by
  obtain ⟨hbound, hex, hopeninv⟩ := h
  have htid : t.id = xfer_id := by simpa using List.find?_some hft
  have hrcid : rc.xfer_id = xfer_id := by simpa using List.find?_some hfc
  have hdt := hopeninv xfer_id t rc hft hfc hopen
  have hxid : (recvChunkXfer t chunk_seq).id = xfer_id := by
    simp [recvChunkXfer, htid]
  have hcid : (recvChunkCtx t rc data_len).xfer_id = xfer_id := by
    simp [recvChunkCtx, hrcid]
  refine ⟨?_, ?_, ?_⟩
  · intro y hy
    rcases mem_updateByKey Transfer.id xfer_id _ hy with hy | ⟨x, _, _, hyx⟩
    · exact hbound y hy
    · subst hyx
      show (recvChunkXfer t chunk_seq).done_chunks ≤
        max (recvChunkXfer t chunk_seq).total_chunks 1
      simp only [recvChunkXfer]
      rcases hdt with hlt | ⟨h0, h0d⟩
      · exact le_trans hlt (Nat.le_max_left _ _)
      · rw [h0, h0d]
        decide
  · intro a ha
    by_cases hax : a = xfer_id
    · subst hax
      rw [find?_updateByKey_self RecvCtx.xfer_id a _ hfc hcid]
      rfl
    · rw [find?_updateByKey_other Transfer.id xfer_id a _ hax
            (fun x _ => hxid)] at ha
      rw [find?_updateByKey_other RecvCtx.xfer_id xfer_id a _ hax
            (fun x _ => hcid)]
      exact hex a ha
  · intro a t2 rc2 hft2 hfc2 hopen2
    by_cases hax : a = xfer_id
    · subst hax
      rw [find?_updateByKey_self Transfer.id a _ hft hxid] at hft2
      rw [find?_updateByKey_self RecvCtx.xfer_id a _ hfc hcid] at hfc2
      injection hft2 with hft2
      injection hfc2 with hfc2
      subst hft2
      subst hfc2
      by_cases hfin : t.done_chunks + 1 ≥ t.total_chunks
      · exfalso
        rw [recvChunkCtx] at hopen2
        simp [hfin] at hopen2
      · left
        show (recvChunkXfer t chunk_seq).done_chunks <
          (recvChunkXfer t chunk_seq).total_chunks
        simp only [recvChunkXfer]
        omega
    · rw [find?_updateByKey_other Transfer.id xfer_id a _ hax
            (fun x _ => hxid)] at hft2
      rw [find?_updateByKey_other RecvCtx.xfer_id xfer_id a _ hax
            (fun x _ => hcid)] at hfc2
      exact hopeninv a t2 rc2 hft2 hfc2 hopen2

lemma sysInv_set_state {sys : RecvSys} {xfer_id : Nat} {t : Transfer}
    (st : XferState) (h : sysInv sys)
    (hft : transfer_find sys xfer_id = some t) :
    sysInv ⟨updateByKey Transfer.id xfer_id
              (fun u => { u with state := st }) sys.transfers,
            sys.recv_ctxs⟩ := by
  obtain ⟨hbound, hex, hopeninv⟩ := h
  have htid : t.id = xfer_id := by simpa using List.find?_some hft
  have hfid : ∀ x : Transfer, x.id = xfer_id →
      ({ x with state := st } : Transfer).id = xfer_id := by
    intro x hx
    simpa using hx
  refine ⟨?_, ?_, ?_⟩
  · intro y hy
    rcases mem_updateByKey Transfer.id xfer_id _ hy with hy | ⟨x, hx, _, hyx⟩
    · exact hbound y hy
    · subst hyx
      show ({ x with state := st } : Transfer).done_chunks ≤
        max ({ x with state := st } : Transfer).total_chunks 1
      simpa using hbound x hx
  · intro a ha
    by_cases hax : a = xfer_id
    · subst hax
      exact hex a (by rw [transfer_find] at hft; rw [hft]; rfl)
    · rw [find?_updateByKey_other Transfer.id xfer_id a _ hax hfid] at ha
      exact hex a ha
  · intro a t2 rc2 hft2 hfc2 hopen2
    by_cases hax : a = xfer_id
    · subst hax
      rw [find?_updateByKey_self Transfer.id a _ hft (hfid t htid)] at hft2
      injection hft2 with hft2
      subst hft2
      have := hopeninv a t rc2 hft hfc2 hopen2
      simpa using this
    · rw [find?_updateByKey_other Transfer.id xfer_id a _ hax hfid] at hft2
      exact hopeninv a t2 rc2 hft2 hfc2 hopen2

lemma sysInv_step (sys : RecvSys) (op : RecvOp) (h : sysInv sys) :
    sysInv (applyOp sys op) := by
  cases op with
  | meta xfer_id sender filename total_chunks file_size save_dir openOk =>
    simp only [applyOp]
    by_cases hlen : sys.transfers.length < MAX_TRANSFERS
    · cases openOk with
      | true =>
        have heq : (transfer_recv_meta sys xfer_id sender filename total_chunks
            file_size save_dir true).2 =
            ⟨sys.transfers ++ [metaTransfer xfer_id sender filename total_chunks],
             sys.recv_ctxs ++ [metaCtx xfer_id filename file_size save_dir true]⟩ := by
          simp [transfer_recv_meta, hlen]
        rw [heq]
        exact sysInv_append h _ _ rfl rfl
      | false =>
        have heq : (transfer_recv_meta sys xfer_id sender filename total_chunks
            file_size save_dir false).2 =
            ⟨sys.transfers ++
               [{ metaTransfer xfer_id sender filename total_chunks with
                  state := XferState.error }],
             sys.recv_ctxs ++ [metaCtx xfer_id filename file_size save_dir false]⟩ := by
          simp [transfer_recv_meta, hlen]
        rw [heq]
        exact sysInv_append h _ _ rfl rfl
    · have heq : (transfer_recv_meta sys xfer_id sender filename total_chunks
          file_size save_dir openOk).2 = sys := by
        simp [transfer_recv_meta, hlen]
      rw [heq]
      exact h
  | chunk xfer_id chunk_seq data_len writeOk =>
    simp only [applyOp]
    cases hft : transfer_find sys xfer_id with
    | none =>
      have heq : (transfer_recv_chunk sys xfer_id chunk_seq data_len writeOk).2 = sys := by
        simp [transfer_recv_chunk, hft]
      rw [heq]
      exact h
    | some t =>
      by_cases hstate : t.state = XferState.paused ∨ t.state = XferState.error
      · have heq : (transfer_recv_chunk sys xfer_id chunk_seq data_len writeOk).2 = sys := by
          simp [transfer_recv_chunk, hft, hstate]
        rw [heq]
        exact h
      · cases hfc : find_recv_ctx sys xfer_id with
        | none =>
          have heq : (transfer_recv_chunk sys xfer_id chunk_seq data_len writeOk).2 = sys := by
            simp [transfer_recv_chunk, hft, hstate, hfc]
          rw [heq]
          exact h
        | some rc =>
          by_cases hopen : rc.fp_open = true
          · cases writeOk with
            | false =>
              have heq : (transfer_recv_chunk sys xfer_id chunk_seq data_len false).2 = sys := by
                simp [transfer_recv_chunk, hft, hstate, hfc, hopen]
              rw [heq]
              exact h
            | true =>
              have heq : (transfer_recv_chunk sys xfer_id chunk_seq data_len true).2 =
                  ⟨updateByKey Transfer.id xfer_id
                     (fun _ => recvChunkXfer t chunk_seq) sys.transfers,
                   updateByKey RecvCtx.xfer_id xfer_id
                     (fun _ => recvChunkCtx t rc data_len) sys.recv_ctxs⟩ := by
                simp [transfer_recv_chunk, hft, hstate, hfc, hopen]
              rw [heq]
              exact sysInv_chunk_update chunk_seq data_len ⟨h.1, h.2.1, h.2.2⟩ hft hfc hopen
          · have hopenf : rc.fp_open = false := by simpa using hopen
            have heq : (transfer_recv_chunk sys xfer_id chunk_seq data_len writeOk).2 = sys := by
              simp [transfer_recv_chunk, hft, hstate, hfc, hopenf]
            rw [heq]
            exact h
  | pause xfer_id =>
    simp only [applyOp]
    cases hft : transfer_find sys xfer_id with
    | none =>
      rw [transfer_pause_of_find_none hft]
      exact h
    | some t =>
      by_cases ha : t.state = XferState.active
      · rw [transfer_pause_of_find_active hft ha]
        exact sysInv_set_state XferState.paused h hft
      · rw [transfer_pause_of_find_not_active hft ha]
        exact h
  | resume xfer_id =>
    simp only [applyOp]
    cases hft : transfer_find sys xfer_id with
    | none =>
      rw [transfer_resume_of_find_none hft]
      exact h
    | some t =>
      by_cases ha : t.state = XferState.paused
      · rw [transfer_resume_of_find_paused hft ha]
        exact sysInv_set_state XferState.active h hft
      · rw [transfer_resume_of_find_not_paused hft ha]
        exact h

lemma sysInv_foldl (ops : List RecvOp) :
    ∀ sys, sysInv sys → sysInv (ops.foldl applyOp sys) := by
  induction ops with
  | nil => intro sys h; exact h
  | cons op ops ih =>
    intro sys h
    exact ih (applyOp sys op) (sysInv_step sys op h)

lemma sysInv_runOps (ops : List RecvOp) : sysInv (runOps ops) :=
  sysInv_foldl ops initSys sysInv_initSys

lemma sendLoopAux_done_le (resp : Nat → Nat → WaitRes) (data : Nat → List Nat)
    (total : Nat) :
    ∀ remaining seq done frames, seq + remaining = total → done ≤ total →
      (sendLoopAux resp data total seq remaining done frames).done ≤ total := by
  intro remaining
  induction remaining with
  | zero =>
    intro seq done frames hseq hdone
    by_cases h : done = total <;> simp [sendLoopAux, h, hdone]
  | succ r ih =>
    intro seq done frames hseq hdone
    simp only [sendLoopAux]
    by_cases hc : (chunkTry (resp seq)).acked = true
    · simp only [hc, if_true]
      exact ih (seq + 1) (seq + 1) _ (by omega) (by omega)
    · simp only [hc, if_false]
      by_cases hp : (chunkTry (resp seq)).paused = true
      · simp [hp, hdone]
      · simp [hp, hdone]

/-- C8 counterexample: `done_chunks ≤ total_chunks` does not hold after
every operation.  A receive transfer announced with `total_chunks = 0`
(a zero-byte file) that is delivered a stray chunk ends with
`done_chunks = 1 > 0 = total_chunks`: `transfer_recv_chunk` does not
validate `chunk_seq` against `total_chunks` and increments
unconditionally. -/
theorem c8_stray_chunk_breaks_bound :
    (runOps c8ops).transfers.map (fun t => (t.done_chunks, t.total_chunks)) =
      [(1, 0)] ∧ ¬ ((1 : Nat) ≤ 0) := by
  exact ⟨by decide, by decide⟩

/-- C8 (amended): after every sequence of receive-side engine calls,
every Transfer satisfies `done_chunks ≤ max total_chunks 1` — that is,
`done_chunks ≤ total_chunks` whenever `total_chunks > 0`, with the sole
exception that a zero-chunk receive transfer fed a stray chunk reaches
`done_chunks = 1`; and the send loop always keeps
`done_chunks ≤ total_chunks`. -/
theorem c8_done_le_total_amended :
    (∀ (ops : List RecvOp) (t : Transfer), t ∈ (runOps ops).transfers →
       t.done_chunks ≤ max t.total_chunks 1) ∧
    (∀ (resp : Nat → Nat → WaitRes) (data : Nat → List Nat) (total : Nat),
       (sendLoop resp data total).done ≤ total) := by
  constructor
  · intro ops t ht
    exact (sysInv_runOps ops).1 t ht
  · intro resp data total
    exact sendLoopAux_done_le resp data total total 0 0 [] (by omega) (by omega)

/-- Witness for C8 (amended) at the counterexample input: the stray
chunk leaves the zero-chunk transfer at `done_chunks = 1`, within the
amended bound `max 0 1`. -/
theorem c8_amended_witness :
    ({ id := 1, state := XferState.done, filename := "z.bin", peer := "alice",
       total_chunks := 0, done_chunks := 1, chunk_map := [0] } : Transfer).done_chunks ≤
      max ({ id := 1, state := XferState.done, filename := "z.bin", peer := "alice",
             total_chunks := 0, done_chunks := 1, chunk_map := [0] } : Transfer).total_chunks 1 :=
  c8_done_le_total_amended.1 c8ops
    { id := 1, state := XferState.done, filename := "z.bin", peer := "alice",
      total_chunks := 0, done_chunks := 1, chunk_map := [0] } (by decide)

end MeshWave
